import Mathlib

set_option autoImplicit false

/-!
Shallow embedding of the text-to-svg engine: the anchor parser, the width and
height calculators, the metrics resolver and the SVG wrappers, together with
the JavaScript option-record semantics (key absent / key present but
`undefined` / key present with a value, and `||`-style defaulting on falsy
values). Numbers are embedded as rationals.
-/

namespace TextToSvg

/-- A glyph handle as exposed by the font collaborator: a glyph identifier and
an advance width in design units, absent for glyphs without one. -/
structure Glyph where
  id : Nat
  advanceWidth : Option ℚ
  deriving DecidableEq, Repr

/-- The loaded font capability consumed by the engine: font-wide design-unit
metrics together with the glyph lookup and kerning lookup operations of the
external font collaborator. -/
structure Font where
  unitsPerEm : ℚ
  ascender : ℚ
  descender : ℚ
  stringToGlyphs : String → List Glyph
  getKerningValue : Glyph → Glyph → ℚ

/-- The options record: each field models a JavaScript object entry, where
`none` is an absent key, `some none` a key present with value `undefined`,
and `some (some v)` a key present with value `v`. -/
structure TextToSVGOptions where
  fontSize : Option (Option ℚ) := none
  letterSpacing : Option (Option ℚ) := none
  tracking : Option (Option ℚ) := none
  kerning : Option (Option Bool) := none
  anchor : Option (Option String) := none
  x : Option (Option ℚ) := none
  y : Option (Option ℚ) := none
  attributes : Option (Option (List (String × String))) := none
  deriving DecidableEq, Repr

/-- JavaScript `v || d` on an optional numeric field: a missing key,
`undefined` and `0` are falsy and fall back to the default. -/
def jsOrQ : Option (Option ℚ) → ℚ → ℚ
  | some (some q), d => if q = 0 then d else q
  | some none, d => d
  | none, d => d

/-- JavaScript `v || d` on an optional string field: a missing key,
`undefined` and the empty string are falsy. -/
def jsOrStr : Option (Option String) → String → String
  | some (some s), d => if s = "" then d else s
  | some none, d => d
  | none, d => d

/-- Truthiness of an optional numeric field: present, defined and nonzero. -/
def truthyQ : Option (Option ℚ) → Bool
  | some (some q) => if q = 0 then false else true
  | some none => false
  | none => false

/-- The numeric value of an optional field, read as JavaScript does once the
field is known to hold a number. -/
def qValOf : Option (Option ℚ) → ℚ
  | some (some q) => q
  | some none => 0
  | none => 0

/-- Case-insensitive comparison of two characters, as the `i` regex flag
compares basic latin letters. -/
def ciEq (a c : Char) : Bool := a.toLower == c.toLower

/-- Does the input begin with the given alternative, case-insensitively? -/
def ciStarts : List Char → List Char → Bool
  | [], _ => true
  | _ :: _, [] => false
  | a :: as, c :: cs => ciEq a c && ciStarts as cs

/-- The regex-style match attempt at one position: the alternatives are tried
in order and the matched slice of the input keeps its original case. -/
def matchHere (alts : List (List Char)) (cs : List Char) : Option (List Char) :=
  alts.findSome? fun alt => if ciStarts alt cs then some (cs.take alt.length) else none

/-- First regex-style match of the ordered alternatives over the input:
positions are scanned left to right, at each position the alternatives are
tried in order, and the matched slice of the input is returned with its
original case, as JavaScript `String.match` with the `gi` flags yields it. -/
def scanMatch (alts : List (List Char)) : List Char → Option (List Char)
  | [] => matchHere alts []
  | c :: cs => (matchHere alts (c :: cs)).orElse fun _ => scanMatch alts cs

/-- The resolved anchor keyword pair. -/
structure AnchorPair where
  horizontal : String
  vertical : String
  deriving DecidableEq, Repr

/-- The ordered alternatives of the horizontal anchor regex. -/
def horizontalAlts : List (List Char) := ["left".data, "center".data, "right".data]

/-- The ordered alternatives of the vertical anchor regex. -/
def verticalAlts : List (List Char) := ["baseline".data, "top".data, "bottom".data, "middle".data]

/-- The default of a keyword lookup: the first match when there is one. -/
def keywordOf : Option (List Char) → String → String
  | none, d => d
  | some cs, _ => String.mk cs

/-- `parseAnchorOption`: extract the horizontal and vertical anchor keywords by
first case-insensitive substring match, defaulting to `left` and `baseline`
when no keyword occurs. The matched slice keeps the case it has in the input. -/
def parseAnchorOption (anchor : String) : AnchorPair :=
  let horizontal := keywordOf (scanMatch horizontalAlts anchor.data) "left"
  let vertical := keywordOf (scanMatch verticalAlts anchor.data) "baseline"
  { horizontal, vertical }

/-- The per-glyph advance contribution: `advanceWidth * fontScale` when the
advance is truthy (present and nonzero). -/
def advTerm : Glyph → ℚ → ℚ
  | ⟨_, some a⟩, fontScale => if a = 0 then 0 else a * fontScale
  | ⟨_, none⟩, _ => 0

/-- The per-glyph spacing contribution of one `getWidth` call: letterSpacing
when truthy, else tracking when truthy, else nothing. -/
def spacingTerm (letterSpacing tracking : Option (Option ℚ)) (fontSize : ℚ) : ℚ :=
  if truthyQ letterSpacing then qValOf letterSpacing * fontSize
  else if truthyQ tracking then qValOf tracking / 1000 * fontSize
  else 0

/-- The width accumulation loop of `getWidth`: every glyph contributes its
advance and the call's spacing term, and every glyph but the last contributes
a kerning delta when kerning is enabled. -/
def widthLoop (font : Font) (kerning : Bool) (spacing fontScale : ℚ) : List Glyph → ℚ
  | [] => 0
  | [g] => advTerm g fontScale + spacing
  | g :: g2 :: gs =>
    advTerm g fontScale
      + (if kerning then font.getKerningValue g g2 * fontScale else 0)
      + spacing
      + widthLoop font kerning spacing fontScale (g2 :: gs)

/-- The kerning flag of a call: `true` when the key is absent, the key's value
under truthiness otherwise (`undefined` is falsy). -/
def kerningFlag : Option (Option Bool) → Bool
  | none => true
  | some (some b) => b
  | some none => false

/-- `getWidth`: total advance of the glyph run in pixels, with kerning deltas
and the per-glyph spacing rule. -/
def getWidth (font : Font) (text : String) (options : TextToSVGOptions) : ℚ :=
  let fontSize := jsOrQ options.fontSize 72
  let fontScale := 1 / font.unitsPerEm * fontSize
  widthLoop font (kerningFlag options.kerning)
    (spacingTerm options.letterSpacing options.tracking fontSize) fontScale
    (font.stringToGlyphs text)

/-- `getHeight`: the font-wide pixel height at the given size. -/
def getHeight (font : Font) (fontSize : ℚ) : ℚ :=
  (font.ascender - font.descender) * (1 / font.unitsPerEm * fontSize)

/-- The record returned by `getMetrics`. -/
structure Metrics where
  x : ℚ
  y : ℚ
  baseline : ℚ
  width : ℚ
  height : ℚ
  ascender : ℚ
  descender : ℚ
  deriving DecidableEq, Repr

/-- The horizontal switch of `getMetrics`: the amount subtracted from the
caller's x, or the thrown error for an unrecognized keyword. -/
def horizShift : String → ℚ → Except String ℚ
  | "left", _ => .ok 0
  | "center", width => .ok (width / 2)
  | "right", width => .ok width
  | h, _ => .error ("Unknown anchor option: " ++ h)

/-- The vertical switch of `getMetrics`: the amount subtracted from the
caller's y, or the thrown error for an unrecognized keyword. -/
def vertShift : String → ℚ → ℚ → Except String ℚ
  | "baseline", ascender, _ => .ok ascender
  | "top", _, _ => .ok 0
  | "middle", _, height => .ok (height / 2)
  | "bottom", _, height => .ok height
  | v, _, _ => .error ("Unknown anchor option: " ++ v)

/-- `getMetrics`: resolve the anchor and produce the positioning record; the
horizontal switch runs first, so its error is the one thrown when both
keywords are unrecognized. -/
def getMetrics (font : Font) (text : String) (options : TextToSVGOptions) :
    Except String Metrics :=
  let fontSize := jsOrQ options.fontSize 72
  let anchor := parseAnchorOption (jsOrStr options.anchor "")
  let width := getWidth font text options
  let height := getHeight font fontSize
  let fontScale := 1 / font.unitsPerEm * fontSize
  let ascender := font.ascender * fontScale
  let descender := font.descender * fontScale
  (horizShift anchor.horizontal width).bind fun dx =>
    (vertShift anchor.vertical ascender height).bind fun dy =>
      let x := jsOrQ options.x 0 - dx
      let y := jsOrQ options.y 0 - dy
      .ok { x, y, baseline := y + ascender, width, height, ascender, descender }

/-- `'kerning' in options ? options.kerning : true`: the kerning flag handed to
the font collaborator by `getD`, of JavaScript type `boolean | undefined`. -/
def passedKerning : Option (Option Bool) → Option Bool
  | none => some true
  | some v => v

/-- `'letterSpacing' in options ? options.letterSpacing : undefined` (and the
same for tracking): the numeric shaping flag handed to the collaborator. -/
def passedQ : Option (Option ℚ) → Option ℚ
  | none => none
  | some v => v

/-- The shaping options object `{ kerning, letterSpacing, tracking }` that
`getD` passes to the font collaborator's outline-path operation. -/
structure PathOptions where
  kerning : Option Bool
  letterSpacing : Option ℚ
  tracking : Option ℚ
  deriving DecidableEq, Repr

/-- Truthiness of a shaping flag of JavaScript type `number | undefined`. -/
def optTruthyQ : Option ℚ → Bool
  | some q => if q = 0 then false else true
  | none => false

/-- The numeric value of a shaping flag, `0` standing in for `undefined` in
contexts where the flag was already found truthy. -/
def optValQ : Option ℚ → ℚ
  | some q => q
  | none => 0

/-- The collaborator's per-glyph spacing, mirroring the width calculator's
spacing rule as the spec requires for measured/rendered consistency. -/
def pathSpacing (ls tr : Option ℚ) (fontSize : ℚ) : ℚ :=
  if optTruthyQ ls then optValQ ls * fontSize
  else if optTruthyQ tr then optValQ tr / 1000 * fontSize
  else 0

/-- The collaborator's pen run: each glyph is placed at the current pen
position, and the pen advances by the glyph advance, the kerning delta when
kerning is on, and the spacing term. -/
def penRun (font : Font) (kerning : Bool) (spacing scale : ℚ) (pen : ℚ) :
    List Glyph → List (Nat × ℚ)
  | [] => []
  | [g] => [(g.id, pen)]
  | g :: g2 :: gs =>
    (g.id, pen) :: penRun font kerning spacing scale
      (pen + advTerm g scale
        + (if kerning then font.getKerningValue g g2 * scale else 0)
        + spacing)
      (g2 :: gs)

/-- Decimal rendering of a number as JavaScript template strings coerce it;
exact on integers, which are the only values the development inspects. -/
def jsNumStr (q : ℚ) : String :=
  if q.den = 1 then toString q.num else toString q

/-- Modelled from the spec: the font collaborator's outline-path operation
(`font.getPath(text, x, y, fontSize, options).toPathData()`), whose body is
not part of this repository. Per the spec it places the glyph outlines by the
same advance/kerning/spacing accumulation as the width calculator — kerning
applied exactly when the passed flag is truthy — and serializes the resulting
outline; the serialization itself is abstracted to a listing of glyph ids and
pen positions. -/
def fontGetPath (font : Font) (text : String) (x y fontSize : ℚ)
    (options : PathOptions) : String :=
  let scale := 1 / font.unitsPerEm * fontSize
  let run := penRun font (options.kerning == some true)
    (pathSpacing options.letterSpacing options.tracking fontSize) scale x
    (font.stringToGlyphs text)
  String.intercalate " " (run.map fun pg =>
    "g" ++ toString pg.1 ++ ":" ++ jsNumStr pg.2 ++ "," ++ jsNumStr y)

/-- `getD`: resolve the metrics, then ask the collaborator for path data at
`(metrics.x, metrics.baseline)`, passing the shaping flags through. -/
def getD (font : Font) (text : String) (options : TextToSVGOptions) :
    Except String String :=
  let fontSize := jsOrQ options.fontSize 72
  let kerning := passedKerning options.kerning
  let letterSpacing := passedQ options.letterSpacing
  let tracking := passedQ options.tracking
  (getMetrics font text options).map fun metrics =>
    fontGetPath font text metrics.x metrics.baseline fontSize
      { kerning, letterSpacing, tracking }

/-- `options.attributes || {}`: any present object — empty included — is
truthy; only a missing or undefined key falls back to the empty object. -/
def attrsOf : Option (Option (List (String × String))) → List (String × String)
  | some (some l) => l
  | some none => []
  | none => []

/-- The serialized attribute pairs, space-joined in key order. -/
def attrString (attributes : List (String × String)) : String :=
  String.intercalate " " (attributes.map fun kv => kv.1 ++ "=\"" ++ kv.2 ++ "\"")

/-- The `<path/>` element text: the serialized extra attributes are inserted
before `d` when there are any. -/
def pathElement (attributesStr d : String) : String :=
  if attributesStr ≠ "" then "<path " ++ attributesStr ++ " d=\"" ++ d ++ "\"/>"
  else "<path d=\"" ++ d ++ "\"/>"

/-- `getPath`: wrap the path data in a `<path/>` element. -/
def getPath (font : Font) (text : String) (options : TextToSVGOptions) :
    Except String String :=
  let attributesStr := attrString (attrsOf options.attributes)
  (getD font text options).map fun d => pathElement attributesStr d

/-- The root element opening of the generated SVG documents. -/
def svgOpen (width height : ℚ) : String :=
  "<svg xmlns=\"http://www.w3.org/2000/svg\" xmlns:xlink=\"http://www.w3.org/1999/xlink\" width=\""
    ++ jsNumStr width ++ "\" height=\"" ++ jsNumStr height ++ "\">"

/-- `getSVG`: a standalone SVG document sized to the metrics' own width and
height, containing the path element. -/
def getSVG (font : Font) (text : String) (options : TextToSVGOptions) :
    Except String String :=
  (getMetrics font text options).bind fun metrics =>
    (getPath font text options).map fun p =>
      svgOpen metrics.width metrics.height ++ p ++ "</svg>"

/-- One field of `JSON.parse(JSON.stringify(options))`: a key present with
value `undefined` is dropped by JSON serialization; defined values survive. -/
def jrField {α : Type} : Option (Option α) → Option (Option α)
  | some none => none
  | some (some v) => some (some v)
  | none => none

/-- `JSON.parse(JSON.stringify(options))`: the deep copy taken by
`getDebugSVG` before it touches `x` and `y`. -/
def jsonRoundTrip (o : TextToSVGOptions) : TextToSVGOptions :=
  { fontSize := jrField o.fontSize
    letterSpacing := jrField o.letterSpacing
    tracking := jrField o.tracking
    kerning := jrField o.kerning
    anchor := jrField o.anchor
    x := jrField o.x
    y := jrField o.y
    attributes := jrField o.attributes }

/-- A heap of option objects: the caller's object lives at its index, and
object mutation is an indexed update. `getDebugSVG` is the one operation whose
JavaScript body assigns to object properties, so it is embedded against this
heap to express what the caller's object observes. -/
abbrev Heap := List TextToSVGOptions

/-- Dereference an object address. -/
def heapGet (h : Heap) (a : Nat) : TextToSVGOptions := h.getD a {}

/-- The red axis guide of the debug document. -/
def axisPath (d : String) : String :=
  "<path fill=\"none\" stroke=\"red\" stroke-width=\"1\" d=\"" ++ d ++ "\"/>"

/-- `getDebugSVG` over the object heap, with the caller's options object at
address `a`: the body first rebinds its `options` variable to a fresh deep
copy (allocated at the end of the heap), then defaults `x`/`y` on the copy,
computes the metrics and the debug box, shifts the copy's `x`/`y` by the box
origin, and renders the document with axis guides; a thrown metrics error
propagates. Every property write goes to the copy's address. -/
def getDebugSVG (font : Font) (text : String) (h : Heap) (a : Nat) :
    Heap × Except String String :=
  let p := h.length
  let h1 := h ++ [jsonRoundTrip (heapGet h a)]
  let h2 := h1.set p { heapGet h1 p with x := some (some (jsOrQ (heapGet h1 p).x 0)) }
  let h3 := h2.set p { heapGet h2 p with y := some (some (jsOrQ (heapGet h2 p).y 0)) }
  match getMetrics font text (heapGet h3 p) with
  | .error e => (h3, .error e)
  | .ok metrics =>
    let boxWidth := max (metrics.x + metrics.width) 0 - min metrics.x 0
    let boxHeight := max (metrics.y + metrics.height) 0 - min metrics.y 0
    let originX := boxWidth - max (metrics.x + metrics.width) 0
    let originY := boxHeight - max (metrics.y + metrics.height) 0
    let h4 := h3.set p { heapGet h3 p with x := some (some (qValOf (heapGet h3 p).x + originX)) }
    let h5 := h4.set p { heapGet h4 p with y := some (some (qValOf (heapGet h4 p).y + originY)) }
    match getPath font text (heapGet h5 p) with
    | .error e => (h5, .error e)
    | .ok pathEl =>
      (h5, .ok (svgOpen boxWidth boxHeight
        ++ axisPath ("M0," ++ jsNumStr originY ++ "L" ++ jsNumStr boxWidth ++ "," ++ jsNumStr originY)
        ++ axisPath ("M" ++ jsNumStr originX ++ ",0L" ++ jsNumStr originX ++ "," ++ jsNumStr boxHeight)
        ++ pathEl ++ "</svg>"))

/-- A concrete glyph used by the witnesses: advance 500 design units. -/
def gA : Glyph := ⟨0, some 500⟩

/-- A concrete glyph used by the witnesses: advance 600 design units. -/
def gB : Glyph := ⟨1, some 600⟩

/-- A concrete font for witnesses and counterexamples: 1000 units per em,
ascender 800, descender -200, glyphs for `A` and `B`, and a kerning entry of
-50 design units for the pair `(A, B)`. -/
def testFont : Font where
  unitsPerEm := 1000
  ascender := 800
  descender := -200
  stringToGlyphs := fun s => s.data.map fun c =>
    if c = 'A' then gA else if c = 'B' then gB else ⟨2, none⟩
  getKerningValue := fun g g2 => if g.id = 0 ∧ g2.id = 1 then -50 else 0

/-- The path-data string a successful `getD` call returns, given the metrics
record its `getMetrics` call produced. -/
def pathData (font : Font) (text : String) (options : TextToSVGOptions) (m : Metrics) : String :=
  fontGetPath font text m.x m.baseline (jsOrQ options.fontSize 72)
    { kerning := passedKerning options.kerning
      letterSpacing := passedQ options.letterSpacing
      tracking := passedQ options.tracking }

/-- Lower-casing of a character list, the comparison key of the
case-insensitive regex match. -/
def lowerChars (cs : List Char) : List Char := cs.map Char.toLower

/-- Lower-casing of a string. -/
def lowerStr (s : String) : String := String.mk (lowerChars s.data)

/-- An anchor pair up to letter case. -/
def lowerPair (p : AnchorPair) : AnchorPair := ⟨lowerStr p.horizontal, lowerStr p.vertical⟩

/-- The summed kerning deltas of consecutive glyph pairs, in design units. -/
def kernSum (font : Font) : List Glyph → ℚ
  | [] => 0
  | [_] => 0
  | g :: g2 :: gs => font.getKerningValue g g2 + kernSum font (g2 :: gs)

/-- The anchor of the options record parses to keywords the `getMetrics`
switches recognize (the literal lowercase spellings). -/
def recognizedAnchors (options : TextToSVGOptions) : Prop :=
  (parseAnchorOption (jsOrStr options.anchor "")).horizontal ∈ (["left", "center", "right"] : List String)
  ∧ (parseAnchorOption (jsOrStr options.anchor "")).vertical ∈ (["baseline", "top", "middle", "bottom"] : List String)

instance (options : TextToSVGOptions) : Decidable (recognizedAnchors options) := by
  unfold recognizedAnchors; infer_instance

/-- The metrics record `getMetrics testFont "A" {}` evaluates to. -/
def cM : Metrics := ⟨0, -(288/5), 0, 36, 72, 288/5, -(72/5)⟩


/-! ## Helper lemmas -/

theorem ciEq_congr (a c c' : Char) (h : c.toLower = c'.toLower) : ciEq a c = ciEq a c' := by
  simp [ciEq, h]

theorem ciStarts_congr (alt : List Char) : ∀ cs cs' : List Char,
    lowerChars cs = lowerChars cs' → ciStarts alt cs = ciStarts alt cs' := by
  induction alt with
  | nil => intro cs cs' _; cases cs <;> cases cs' <;> simp [ciStarts]
  | cons a as ih =>
    intro cs cs' h
    cases cs with
    | nil => cases cs' with
      | nil => rfl
      | cons c' cs' => simp [lowerChars] at h
    | cons c cs => cases cs' with
      | nil => simp [lowerChars] at h
      | cons c' cs' =>
        simp only [lowerChars, List.map_cons, List.cons.injEq] at h
        simp only [ciStarts, ciEq_congr a c c' h.1, ih cs cs' h.2]

theorem matchHere_congr (alts : List (List Char)) : ∀ cs cs' : List Char,
    lowerChars cs = lowerChars cs' →
    (matchHere alts cs).map lowerChars = (matchHere alts cs').map lowerChars := by
  induction alts with
  | nil => intro cs cs' _; simp [matchHere]
  | cons alt alts ih =>
    intro cs cs' h
    simp only [matchHere, List.findSome?_cons]
    rw [ciStarts_congr alt cs cs' h]
    by_cases hs : ciStarts alt cs' = true
    · simp only [hs, if_pos]
      simp only [lowerChars] at h
      simp [lowerChars, List.map_take, h]
    · simp only [hs]
      simpa [matchHere, hs] using ih cs cs' h

theorem scanMatch_congr (alts : List (List Char)) : ∀ cs cs' : List Char,
    lowerChars cs = lowerChars cs' →
    (scanMatch alts cs).map lowerChars = (scanMatch alts cs').map lowerChars := by
  intro cs
  induction cs with
  | nil => intro cs' h
           cases cs' with
           | nil => rfl
           | cons c' t => simp [lowerChars] at h
  | cons c t ih =>
    intro cs' h
    cases cs' with
    | nil => simp [lowerChars] at h
    | cons c' t' =>
      simp only [scanMatch]
      have hm := matchHere_congr alts (c :: t) (c' :: t') h
      cases h1 : matchHere alts (c :: t) with
      | some r =>
        cases h2 : matchHere alts (c' :: t') with
        | some r' => simp [h1, h2, Option.orElse] at hm ⊢; exact hm
        | none => rw [h1, h2] at hm; simp at hm
      | none =>
        cases h2 : matchHere alts (c' :: t') with
        | some r' => rw [h1, h2] at hm; simp at hm
        | none =>
          simp only [h1, h2, Option.orElse]
          simp only [lowerChars, List.map_cons, List.cons.injEq] at h
          exact ih t' h.2

theorem ciStarts_take (alt : List Char) : ∀ cs, ciStarts alt cs = true →
    lowerChars (cs.take alt.length) = lowerChars alt := by
  induction alt with
  | nil => intro cs _; simp [lowerChars]
  | cons a as ih =>
    intro cs h
    cases cs with
    | nil => simp [ciStarts] at h
    | cons c t =>
      simp only [ciStarts, Bool.and_eq_true, ciEq, beq_iff_eq] at h
      simp only [List.length_cons, List.take_succ_cons, lowerChars, List.map_cons]
      exact congrArg₂ _ h.1.symm (ih t h.2)

theorem matchHere_mem (alts : List (List Char)) : ∀ cs r, matchHere alts cs = some r →
    ∃ alt ∈ alts, lowerChars r = lowerChars alt := by
  induction alts with
  | nil => intro cs r h; simp [matchHere] at h
  | cons alt alts ih =>
    intro cs r h
    simp only [matchHere, List.findSome?_cons] at h
    by_cases hs : ciStarts alt cs = true
    · simp only [hs, if_pos] at h
      exact ⟨alt, by simp, by rw [← Option.some_inj.mp h]; exact ciStarts_take alt cs hs⟩
    · simp only [hs] at h
      obtain ⟨a, ha, hr⟩ := ih cs r (by simpa [matchHere] using h)
      exact ⟨a, by simp [ha], hr⟩

theorem scanMatch_mem (alts : List (List Char)) : ∀ cs r, scanMatch alts cs = some r →
    ∃ alt ∈ alts, lowerChars r = lowerChars alt := by
  intro cs
  induction cs with
  | nil => intro r h; exact matchHere_mem alts [] r h
  | cons c t ih =>
    intro r h
    simp only [scanMatch] at h
    cases h1 : matchHere alts (c :: t) with
    | some r' =>
      rw [h1] at h; simp [Option.orElse] at h
      exact matchHere_mem alts (c :: t) r (h ▸ h1)
    | none =>
      rw [h1] at h; simp [Option.orElse] at h
      exact ih r h

theorem parse_lower_mem (s : String) :
    lowerStr (parseAnchorOption s).horizontal ∈ (["left", "center", "right"] : List String)
    ∧ lowerStr (parseAnchorOption s).vertical ∈ (["baseline", "top", "bottom", "middle"] : List String) := by
  constructor
  · show lowerStr (keywordOf (scanMatch horizontalAlts s.data) "left") ∈ _
    cases hm : scanMatch horizontalAlts s.data with
    | none => simp [keywordOf]; left; decide
    | some r =>
      obtain ⟨alt, ha, hr⟩ := scanMatch_mem horizontalAlts s.data r hm
      simp only [horizontalAlts, List.mem_cons, List.not_mem_nil, or_false] at ha
      have hkw : lowerStr (keywordOf (some r) "left") = String.mk (lowerChars r) := rfl
      rw [hkw, hr]
      rcases ha with h | h | h <;> subst h <;> decide
  · show lowerStr (keywordOf (scanMatch verticalAlts s.data) "baseline") ∈ _
    cases hm : scanMatch verticalAlts s.data with
    | none => simp [keywordOf]; left; decide
    | some r =>
      obtain ⟨alt, ha, hr⟩ := scanMatch_mem verticalAlts s.data r hm
      simp only [verticalAlts, List.mem_cons, List.not_mem_nil, or_false] at ha
      have hkw : lowerStr (keywordOf (some r) "baseline") = String.mk (lowerChars r) := rfl
      rw [hkw, hr]
      rcases ha with h | h | h | h <;> subst h <;> decide

theorem parse_ci (s t : String) (h : lowerStr s = lowerStr t) :
    lowerPair (parseAnchorOption s) = lowerPair (parseAnchorOption t) := by
  have hd : lowerChars s.data = lowerChars t.data := by
    have hsd := congrArg String.data h
    simpa [lowerStr] using hsd
  have hH := scanMatch_congr horizontalAlts s.data t.data hd
  have hV := scanMatch_congr verticalAlts s.data t.data hd
  simp only [parseAnchorOption, lowerPair]
  congr 1
  · cases h1 : scanMatch horizontalAlts s.data <;> cases h2 : scanMatch horizontalAlts t.data <;>
      rw [h1, h2] at hH <;> simp_all [keywordOf, lowerStr]
  · cases h1 : scanMatch verticalAlts s.data <;> cases h2 : scanMatch verticalAlts t.data <;>
      rw [h1, h2] at hV <;> simp_all [keywordOf, lowerStr]

theorem widthLoop_kern_sub (font : Font) (s sc : ℚ) (gs : List Glyph) :
    widthLoop font true s sc gs - widthLoop font false s sc gs = kernSum font gs * sc := by
  induction gs with
  | nil => simp [widthLoop, kernSum]
  | cons g tail ih =>
    cases tail with
    | nil => simp [widthLoop, kernSum]
    | cons g2 gs' =>
      simp only [widthLoop, kernSum]
      norm_num
      have h := ih
      ring_nf at h ⊢
      linarith

theorem widthLoop_spacing_split (font : Font) (k : Bool) (s sc : ℚ) (gs : List Glyph) :
    widthLoop font k s sc gs = widthLoop font k 0 sc gs + gs.length * s := by
  induction gs with
  | nil => simp [widthLoop]
  | cons g tail ih =>
    cases tail with
    | nil => simp [widthLoop]
    | cons g2 gs' =>
      simp only [widthLoop, List.length_cons] at *
      rw [ih]
      push_cast
      ring

theorem horizShift_ok_iff (h : String) (w : ℚ) :
    (∃ q, horizShift h w = .ok q) ↔ h = "left" ∨ h = "center" ∨ h = "right" := by
  unfold horizShift
  split <;> simp_all

theorem vertShift_ok_iff (v : String) (a ht : ℚ) :
    (∃ q, vertShift v a ht = .ok q) ↔ v = "baseline" ∨ v = "top" ∨ v = "middle" ∨ v = "bottom" := by
  unfold vertShift
  split <;> simp_all

theorem heapGet_append_lt (l l' : Heap) (a : Nat) (h : a < l.length) :
    heapGet (l ++ l') a = heapGet l a := by
  simp [heapGet, List.getD_eq_getElem?_getD, List.getElem?_append_left h]

theorem heapGet_set_ne (l : Heap) (p : Nat) (v : TextToSVGOptions) (a : Nat) (h : p ≠ a) :
    heapGet (l.set p v) a = heapGet l a := by
  simp [heapGet, List.getD_eq_getElem?_getD, List.getElem?_set_ne h]

theorem bind_ok_elim {α β : Type} {e : Except String α} {f : α → Except String β} {b : β}
    (h : e.bind f = .ok b) : ∃ a, e = .ok a ∧ f a = .ok b := by
  cases e with
  | error err => simp [Except.bind] at h
  | ok a => exact ⟨a, rfl, by simpa [Except.bind] using h⟩

theorem metrics_ok_of_recognized (font : Font) (text : String) (options : TextToSVGOptions)
    (h : recognizedAnchors options) : ∃ m, getMetrics font text options = .ok m := by
  obtain ⟨hH, hV⟩ := h
  simp only [List.mem_cons, List.not_mem_nil, or_false] at hH hV
  obtain ⟨dx, hdx⟩ := (horizShift_ok_iff _ (getWidth font text options)).mpr hH
  obtain ⟨dy, hdy⟩ := (vertShift_ok_iff _
    (font.ascender * (1 / font.unitsPerEm * jsOrQ options.fontSize 72))
    (getHeight font (jsOrQ options.fontSize 72))).mpr hV
  cases hm : getMetrics font text options with
  | ok m => exact ⟨m, rfl⟩
  | error e =>
    simp only [getMetrics, hdx, hdy, Except.bind] at hm
    exact Except.noConfusion hm

theorem getWidth_congr (font : Font) (text : String) (o1 o2 : TextToSVGOptions)
    (hfs : jsOrQ o1.fontSize 72 = jsOrQ o2.fontSize 72)
    (hk : o1.kerning = o2.kerning)
    (hls : o1.letterSpacing = o2.letterSpacing)
    (htr : o1.tracking = o2.tracking) :
    getWidth font text o1 = getWidth font text o2 := by
  simp only [getWidth, hfs, hk, hls, htr]

theorem spacingTerm_of_ls {ls : Option (Option ℚ)} (tr : Option (Option ℚ)) (fs : ℚ)
    (h : truthyQ ls = true) : spacingTerm ls tr fs = qValOf ls * fs := by
  simp [spacingTerm, h]

theorem spacingTerm_of_tr {ls tr : Option (Option ℚ)} (fs : ℚ)
    (h1 : truthyQ ls = false) (h2 : truthyQ tr = true) :
    spacingTerm ls tr fs = qValOf tr / 1000 * fs := by
  simp [spacingTerm, h1, h2]

theorem spacingTerm_none (fs : ℚ) : spacingTerm none none fs = 0 := by
  simp [spacingTerm, truthyQ]

theorem glyphs_A : testFont.stringToGlyphs "A" = [gA] := rfl

theorem glyphs_AB : testFont.stringToGlyphs "AB" = [gA, gB] := rfl

theorem kern_AB : testFont.getKerningValue gA gB = -50 := rfl


/-! ## Claims -/

/-- C1, counterexample: the claim that `getMetrics` never throws — for any
anchor string, upper-case keyword spellings included — fails on the code: the
case-insensitive regex match returns the keyword in the input's case, the
switch compares case-sensitively, and the anchor `"LEFT"` throws
`Unknown anchor option: LEFT`. -/
theorem c1_counterexample :
    getMetrics testFont "" { anchor := some (some "LEFT") }
      = .error "Unknown anchor option: LEFT" := rfl

/-- C1, amended: `getMetrics` returns a Metrics record without throwing
whenever the parsed anchor pair consists of the recognized lowercase keyword
spellings; the throw branches are reachable only through keyword occurrences
whose case differs from the lowercase spellings. -/
theorem c1_amended_theorem (font : Font) (text : String) (options : TextToSVGOptions)
    (h : recognizedAnchors options) : ∃ m, getMetrics font text options = .ok m :=
  metrics_ok_of_recognized font text options h

/-- C1, witness: the anchor `"center middle"` parses to recognized keywords and
`getMetrics` succeeds on it. -/
theorem c1_witness :
    recognizedAnchors ({ anchor := some (some "center middle") } : TextToSVGOptions)
    ∧ ∃ m, getMetrics testFont "hi" { anchor := some (some "center middle") } = .ok m :=
  ⟨by decide, c1_amended_theorem testFont "hi" { anchor := some (some "center middle") } (by decide)⟩

/-- C2, counterexample: changing the letter case of the keywords in the input
does change the resolved pair — `"LEFT"` resolves to the pair
`("LEFT", "baseline")`, not to `("left", "baseline")`. -/
theorem c2_counterexample : parseAnchorOption "LEFT" ≠ parseAnchorOption "left" := by decide

/-- C2, amended: the anchor parser resolves each keyword to the first
case-insensitive occurrence scanning left-to-right (defaults `left` and
`baseline`), so `"right middle"` and `"rightmiddle"` resolve identically; but
the resolved keyword keeps the letter case it has in the input, so a case
change in the input changes the resolved pair exactly up to letter case:
inputs equal up to case resolve to pairs equal up to case, and the lowercased
resolved keywords always lie in the recognized keyword sets. -/
theorem c2_amended_theorem :
    parseAnchorOption "right middle" = parseAnchorOption "rightmiddle"
    ∧ parseAnchorOption "right middle" = ⟨"right", "middle"⟩
    ∧ parseAnchorOption "" = ⟨"left", "baseline"⟩
    ∧ (∀ s t, lowerStr s = lowerStr t →
        lowerPair (parseAnchorOption s) = lowerPair (parseAnchorOption t))
    ∧ (∀ s, lowerStr (parseAnchorOption s).horizontal ∈ (["left", "center", "right"] : List String)
        ∧ lowerStr (parseAnchorOption s).vertical ∈ (["baseline", "top", "bottom", "middle"] : List String)) :=
  ⟨by decide, by decide, by decide, parse_ci, parse_lower_mem⟩

/-- C2, witness: `"RIGHT Middle"` and `"right middle"` agree up to case and so
resolve to pairs that agree up to case. -/
theorem c2_witness :
    lowerStr "RIGHT Middle" = lowerStr "right middle"
    ∧ lowerPair (parseAnchorOption "RIGHT Middle") = lowerPair (parseAnchorOption "right middle") :=
  ⟨by decide, c2_amended_theorem.2.2.2.1 "RIGHT Middle" "right middle" (by decide)⟩

/-- C3, counterexample: with anchor `"left baseline"` and `x = y = 0`, the
returned baseline is `0` (the supplied y), not the pixel-space ascender, which
for the test font at the default size is `288/5 ≠ 0`. -/
theorem c3_counterexample :
    (getMetrics testFont "A"
        { anchor := some (some "left baseline"), x := some (some 0), y := some (some 0) }).toOption.map
      Metrics.baseline = some 0
    ∧ testFont.ascender * (1 / testFont.unitsPerEm * 72) = 288 / 5
    ∧ (0 : ℚ) ≠ 288 / 5 := by
  refine ⟨?_, by norm_num [testFont], by norm_num⟩
  show ((Except.ok _ : Except String Metrics)).toOption.map Metrics.baseline = some 0
  simp only [Except.toOption, Option.map_some]
  show some (jsOrQ (some (some 0)) 0 - _ + _) = some 0
  simp [jsOrQ]

/-- C3, amended: for every font and text,
`getMetrics(text, {anchor: "left baseline", x: 0, y: 0})` succeeds with
`x = 0`, `baseline = 0` (the supplied y: the `baseline` anchor places the
caller's y on the text baseline) and `y` equal to the negated pixel-space
ascender `-(ascender * fontSize/unitsPerEm)` at the default size 72. -/
theorem c3_amended_theorem (font : Font) (text : String) :
    ∃ m, getMetrics font text
        { anchor := some (some "left baseline"), x := some (some 0), y := some (some 0) } = .ok m
      ∧ m.x = 0 ∧ m.baseline = 0 ∧ m.y = 0 - font.ascender * (1 / font.unitsPerEm * 72) := by
  refine ⟨_, rfl, ?_, ?_, ?_⟩
  · simp [jsOrQ]
  · show jsOrQ (some (some 0)) 0 - _ + _ = 0
    simp [jsOrQ]
  · simp [jsOrQ]

/-- C4: every Metrics record `getMetrics` returns satisfies
`baseline = y + ascender` and `height = ascender - descender`, the height does
not depend on the text, the width field is `getWidth` of the same call, and
`getWidth` depends only on the fontSize, kerning, letterSpacing and tracking
options — never on the anchor or the x/y origin. -/
theorem c4_theorem (font : Font) (text : String) (options : TextToSVGOptions) (m : Metrics)
    (hm : getMetrics font text options = .ok m) :
    m.baseline = m.y + m.ascender
    ∧ m.height = m.ascender - m.descender
    ∧ (∀ text2 m2, getMetrics font text2 options = .ok m2 → m2.height = m.height)
    ∧ m.width = getWidth font text options
    ∧ (∀ o2 : TextToSVGOptions, o2.fontSize = options.fontSize → o2.kerning = options.kerning →
        o2.letterSpacing = options.letterSpacing → o2.tracking = options.tracking →
        getWidth font text o2 = getWidth font text options) := by
  simp only [getMetrics] at hm
  obtain ⟨dx, hdx, hm⟩ := bind_ok_elim hm
  obtain ⟨dy, hdy, hm⟩ := bind_ok_elim hm
  obtain rfl := (Except.ok.inj hm).symm
  refine ⟨rfl, ?_, ?_, rfl, ?_⟩
  · show getHeight font (jsOrQ options.fontSize 72) = _
    simp only [getHeight]
    ring
  · intro text2 m2 hm2
    simp only [getMetrics] at hm2
    obtain ⟨dx2, hdx2, hm2⟩ := bind_ok_elim hm2
    obtain ⟨dy2, hdy2, hm2⟩ := bind_ok_elim hm2
    obtain rfl := (Except.ok.inj hm2).symm
    rfl
  · intro o2 h1 h2 h3 h4
    exact getWidth_congr font text o2 options (by rw [h1]) h2 h3 h4

/-- C4, witness: the invariants at the test font on `"A"` with empty options,
whose metrics record is `cM`. -/
theorem c4_witness :
    getMetrics testFont "A" {} = .ok cM ∧ cM.baseline = cM.y + cM.ascender := by
  have hmc : getMetrics testFont "A" {} = .ok cM := by
    show (Except.ok _ : Except String Metrics) = Except.ok cM
    refine congrArg Except.ok ?_
    show Metrics.mk _ _ _ _ _ _ _ = cM
    simp only [cM, Metrics.mk.injEq, getWidth, getHeight, glyphs_A, widthLoop, advTerm,
      spacingTerm, jsOrQ, jsOrStr, kerningFlag, truthyQ, qValOf, gA]
    norm_num [testFont]
  exact ⟨hmc, (c4_theorem testFont "A" {} cM hmc).1⟩

/-- C5: with x and y absent, anchor `"center"` gives `x = -width/2`, `"right"`
gives `x = -width`, `"top"` gives `y = 0`, `"bottom"` gives `y = -height` and
`"middle"` gives `y = -height/2`, width and height being the fields of the
same returned record. -/
theorem c5_theorem (font : Font) (text : String) :
    (∃ m, getMetrics font text { anchor := some (some "center") } = .ok m ∧ m.x = -(m.width / 2))
    ∧ (∃ m, getMetrics font text { anchor := some (some "right") } = .ok m ∧ m.x = -m.width)
    ∧ (∃ m, getMetrics font text { anchor := some (some "top") } = .ok m ∧ m.y = 0)
    ∧ (∃ m, getMetrics font text { anchor := some (some "bottom") } = .ok m ∧ m.y = -m.height)
    ∧ (∃ m, getMetrics font text { anchor := some (some "middle") } = .ok m ∧ m.y = -(m.height / 2)) := by
  refine ⟨⟨_, rfl, ?_⟩, ⟨_, rfl, ?_⟩, ⟨_, rfl, ?_⟩, ⟨_, rfl, ?_⟩, ⟨_, rfl, ?_⟩⟩
  · show jsOrQ none 0 - _ / 2 = -(_ / 2)
    simp [jsOrQ]
  · show jsOrQ none 0 - _ = -(_ : ℚ)
    simp [jsOrQ]
  · show jsOrQ none 0 - 0 = 0
    simp [jsOrQ]
  · show jsOrQ none 0 - _ = -(_ : ℚ)
    simp [jsOrQ]
  · show jsOrQ none 0 - _ / 2 = -(_ / 2)
    simp [jsOrQ]

/-- C6: at a fixed fontSize/letterSpacing/tracking, enabling kerning adds to
`getWidth` exactly the summed kerning deltas of consecutive glyph pairs,
scaled by `fontSize / unitsPerEm`. -/
theorem c6_theorem (font : Font) (text : String) (options : TextToSVGOptions) :
    getWidth font text { options with kerning := some (some true) }
      - getWidth font text { options with kerning := some (some false) }
    = kernSum font (font.stringToGlyphs text) * (jsOrQ options.fontSize 72 / font.unitsPerEm) := by
  simp only [getWidth, kerningFlag]
  rw [widthLoop_kern_sub]
  ring

/-- C7, counterexample: `fontSize: 0` does not degrade to zero-sized output —
`0` is falsy, so the width is computed at the default size 72, which for the
test font on `"A"` gives 36, not 0. -/
theorem c7_counterexample :
    getWidth testFont "A" { fontSize := some (some 0) } = 36 ∧ (36 : ℚ) ≠ 0 := by
  constructor
  · simp [getWidth, glyphs_A, widthLoop, advTerm, spacingTerm, jsOrQ, kerningFlag, gA,
      truthyQ, qValOf, testFont]
    norm_num
  · norm_num

/-- C7, amended: on a loaded font the operations do not fail when the anchor
resolves to recognized keywords: `getMetrics`, `getD` and `getSVG` succeed,
empty text degrades to width 0 and to an SVG document whose root carries
`width="0"`; but `fontSize: 0` is falsy and falls back to the default 72, so
its output equals the output at the default size rather than being
zero-sized. -/
theorem c7_amended_theorem (font : Font) (text : String) (options : TextToSVGOptions) :
    (font.stringToGlyphs "" = [] → getWidth font "" options = 0)
    ∧ (font.stringToGlyphs "" = [] → recognizedAnchors options →
        ∃ hgt rest, getSVG font "" options = .ok (svgOpen 0 hgt ++ rest))
    ∧ jsNumStr 0 = "0"
    ∧ (recognizedAnchors options →
        (∃ d, getD font text options = .ok d) ∧ (∃ s, getSVG font text options = .ok s))
    ∧ getWidth font text { options with fontSize := some (some 0) }
        = getWidth font text { options with fontSize := none }
    ∧ getMetrics font text { options with fontSize := some (some 0) }
        = getMetrics font text { options with fontSize := none } := by
  refine ⟨?_, ?_, by decide, ?_, ?_, ?_⟩
  · intro h; simp [getWidth, h, widthLoop]
  · intro h hr
    obtain ⟨m, hm⟩ := metrics_ok_of_recognized font "" options hr
    have hw0 : getWidth font "" options = 0 := by simp [getWidth, h, widthLoop]
    have hwm : m.width = 0 := by
      simp only [getMetrics] at hm
      obtain ⟨dx, hdx, hm⟩ := bind_ok_elim hm
      obtain ⟨dy, hdy, hm⟩ := bind_ok_elim hm
      obtain rfl := (Except.ok.inj hm).symm
      exact hw0
    have hs : getSVG font "" options
        = .ok (svgOpen m.width m.height
            ++ pathElement (attrString (attrsOf options.attributes)) (pathData font "" options m)
            ++ "</svg>") := by
      simp only [getSVG, getPath, getD, pathData, hm, Except.bind, Except.map]
    refine ⟨m.height,
      pathElement (attrString (attrsOf options.attributes)) (pathData font "" options m) ++ "</svg>", ?_⟩
    rw [hs, hwm, String.append_assoc]
  · intro hr
    obtain ⟨m, hm⟩ := metrics_ok_of_recognized font text options hr
    constructor
    · exact ⟨pathData font text options m, by simp only [getD, pathData, hm, Except.map]⟩
    · exact ⟨svgOpen m.width m.height
          ++ pathElement (attrString (attrsOf options.attributes)) (pathData font text options m)
          ++ "</svg>",
        by simp only [getSVG, getPath, getD, pathData, hm, Except.bind, Except.map]⟩
  · exact getWidth_congr font text _ _ (by simp [jsOrQ]) rfl rfl rfl
  · have hw : getWidth font text { options with fontSize := some (some 0) }
        = getWidth font text { options with fontSize := none } :=
      getWidth_congr font text _ _ (by simp [jsOrQ]) rfl rfl rfl
    simp only [getMetrics, hw]
    simp [jsOrQ]

/-- C7, witness: the test font on empty text with empty options: zero width,
and a successful SVG document opening with `width="0"`. -/
theorem c7_witness :
    testFont.stringToGlyphs "" = []
    ∧ recognizedAnchors ({} : TextToSVGOptions)
    ∧ getWidth testFont "" {} = 0
    ∧ (∃ hgt rest, getSVG testFont "" {} = .ok (svgOpen 0 hgt ++ rest)) :=
  ⟨rfl, by decide, (c7_amended_theorem testFont "x" {}).1 rfl,
    (c7_amended_theorem testFont "x" {}).2.1 rfl (by decide)⟩

/-- C8: one spacing rule per call, decided once: when letterSpacing is truthy
the width is the spacing-free width plus `letterSpacing * fontSize` once per
glyph (the last included) and tracking is ignored even when present;
otherwise, when tracking is truthy, the width is the spacing-free width plus
`(tracking / 1000) * fontSize` once per glyph. -/
theorem c8_theorem (font : Font) (text : String) (options : TextToSVGOptions)
    (tr : Option (Option ℚ)) :
    (truthyQ options.letterSpacing = true →
      getWidth font text { options with tracking := tr } = getWidth font text options
      ∧ getWidth font text options
        = getWidth font text { options with letterSpacing := none, tracking := none }
          + ((font.stringToGlyphs text).length : ℚ)
            * (qValOf options.letterSpacing * jsOrQ options.fontSize 72))
    ∧ (truthyQ options.letterSpacing = false → truthyQ options.tracking = true →
      getWidth font text options
        = getWidth font text { options with letterSpacing := none, tracking := none }
          + ((font.stringToGlyphs text).length : ℚ)
            * (qValOf options.tracking / 1000 * jsOrQ options.fontSize 72)) := by
  constructor
  · intro hls
    constructor
    · simp only [getWidth, spacingTerm_of_ls _ _ hls, spacingTerm_of_ls tr _ hls]
    · simp only [getWidth, spacingTerm_of_ls _ _ hls, spacingTerm_none]
      rw [widthLoop_spacing_split]
  · intro hls htr
    simp only [getWidth, spacingTerm_of_tr _ hls htr, spacingTerm_none]
    rw [widthLoop_spacing_split]

/-- C8, witness: letterSpacing 2 on the test font's `"A"`: tracking 9 is
ignored and the width decomposes into the spacing-free width plus one
letterSpacing contribution. -/
theorem c8_witness :
    truthyQ (some (some (2 : ℚ))) = true
    ∧ getWidth testFont "A" { letterSpacing := some (some 2), tracking := some (some 9) }
        = getWidth testFont "A" { letterSpacing := some (some 2) }
    ∧ getWidth testFont "A" { letterSpacing := some (some 2) }
        = getWidth testFont "A" { letterSpacing := none, tracking := none }
          + ((testFont.stringToGlyphs "A").length : ℚ)
            * (qValOf (some (some 2)) * jsOrQ none 72) := by
  have h := (c8_theorem testFont "A" { letterSpacing := some (some 2) } (some (some 9))).1 (by decide)
  exact ⟨by decide, h.1, h.2⟩

/-- C9: `getDebugSVG` does not mutate the caller's options object: over the
object heap, the body deep-copies the record into a fresh cell, every
`x`/`y` property write goes to the copy, and the caller's cell is unchanged
after the call. -/
theorem c9_theorem (font : Font) (text : String) (h : Heap) (a : Nat)
    (ha : a < h.length) :
    heapGet (getDebugSVG font text h a).1 a = heapGet h a := by
  have hne : h.length ≠ a := by omega
  simp only [getDebugSVG]
  split
  · rw [heapGet_set_ne _ _ _ _ hne, heapGet_set_ne _ _ _ _ hne, heapGet_append_lt _ _ _ ha]
  · split
    · rw [heapGet_set_ne _ _ _ _ hne, heapGet_set_ne _ _ _ _ hne, heapGet_set_ne _ _ _ _ hne,
        heapGet_set_ne _ _ _ _ hne, heapGet_append_lt _ _ _ ha]
    · rw [heapGet_set_ne _ _ _ _ hne, heapGet_set_ne _ _ _ _ hne, heapGet_set_ne _ _ _ _ hne,
        heapGet_set_ne _ _ _ _ hne, heapGet_append_lt _ _ _ ha]

/-- C9, witness: a one-object heap whose object survives a `getDebugSVG` call
unchanged. -/
theorem c9_witness :
    0 < ([({ x := some (some 5) } : TextToSVGOptions)] : Heap).length
    ∧ heapGet (getDebugSVG testFont "A" [{ x := some (some 5) }] 0).1 0
        = heapGet [{ x := some (some 5) }] 0 :=
  ⟨by decide, c9_theorem testFont "A" [{ x := some (some 5) }] 0 (by decide)⟩

/-- C10: a kerning key present with value `undefined` behaves as explicit
`false` in both `getWidth` and `getD` (no kerning deltas are applied), while
omitting the key entirely behaves as explicit `true`; presence with
`undefined` is observably different from absence, as the test font's kerned
pair shows. -/
theorem c10_theorem (font : Font) (text : String) (options : TextToSVGOptions) :
    getWidth font text { options with kerning := some none }
      = getWidth font text { options with kerning := some (some false) }
    ∧ getD font text { options with kerning := some none }
        = getD font text { options with kerning := some (some false) }
    ∧ getWidth font text { options with kerning := none }
        = getWidth font text { options with kerning := some (some true) }
    ∧ getD font text { options with kerning := none }
        = getD font text { options with kerning := some (some true) }
    ∧ getWidth testFont "AB" { kerning := some none } ≠ getWidth testFont "AB" {} := by
  refine ⟨rfl, rfl, rfl, rfl, ?_⟩
  have h1 : getWidth testFont "AB" { kerning := some none } = 396 / 5 := by
    simp [getWidth, glyphs_AB, widthLoop, advTerm, spacingTerm, jsOrQ, kerningFlag, gA, gB,
      truthyQ, qValOf, testFont]
    norm_num
  have h2 : getWidth testFont "AB" {} = 378 / 5 := by
    simp [getWidth, glyphs_AB, kern_AB, widthLoop, advTerm, spacingTerm, jsOrQ, kerningFlag,
      gA, gB, truthyQ, qValOf]
    norm_num [testFont]
  rw [h1, h2]
  norm_num

end TextToSvg
